import Mathlib

/-!
Verification development for the wc3ts LAN-game proxy.

This file gives a shallow embedding of the core data model and operations of
the wc3ts daemon (game registry, LAN re-broadcaster, TCP join proxy,
peer probe engine, version-string parsing) and proves the specification
claims about them.

Conventions of the embedding:
* machine integers (`uint32`, `uint16`, bytes) are `Nat` with explicit
  `% 256` / bound hypotheses where Go truncation matters;
* byte slices are `List Nat`;
* `time.Time` values are `Nat` instants passed in explicitly (`now`);
* Go maps are association lists (`mapSet` models `m[k] = v`, `mapLookup`
  models `v, ok := m[k]`); iteration order of a Go map is arbitrary, so
  only order-insensitive facts are claimed about map iteration;
* a second "memory model" (`Store` / `GameM`) makes Go slice headers
  explicit: a `[]byte` is an index into a store of byte arrays, so that
  claims about aliasing of `RawData` between registry-internal storage and
  returned copies can be settled faithfully.
-/

namespace WC3TS

/-- Source of a discovered game (`game.Source`, values `SourceLocal` /
`SourceRemote` in `game/game.go`). -/
inductive Source where
  | Local
  | Remote
deriving DecidableEq

/-- Decoded game announcement (`w3gs.GameInfo`), restricted to the fields the
core reads: name, host counter, slot counts and the origin's TCP game port.
All integer fields are `uint32` in Go except `GamePort` (`uint16`). -/
structure GameInfo where
  GameName : String
  HostCounter : Nat
  SlotsUsed : Nat
  SlotsTotal : Nat
  SlotsAvailable : Nat
  GamePort : Nat
deriving DecidableEq

/-- A discovered game (`game.Game` in `game/game.go`), with `RawData` as the
byte list it holds and timestamps as `Nat` instants. -/
structure Game where
  Info : GameInfo
  RawData : List Nat
  Source : Source
  PeerIP : String
  PeerName : String
  FirstSeen : Nat
  LastSeen : Nat
deriving DecidableEq

/-- Embedding of `Game.Key` from `game/game.go`: local games key on `"local:" + name`,
remote games on `peerIP + ":" + name`. -/
def Game.Key (g : Game) : String :=
  if g.Source = Source.Local then "local:" ++ g.Info.GameName
  else g.PeerIP ++ ":" ++ g.Info.GameName

/-- Go map assignment `m[k] = v` on an association list: replaces the entry
with key `k` if present, otherwise appends it. -/
def mapSet {α : Type} (m : List (String × α)) (k : String) (v : α) :
    List (String × α) :=
  match m with
  | [] => [(k, v)]
  | (k0, v0) :: rest => if k0 = k then (k, v) :: rest else (k0, v0) :: mapSet rest k v

/-- Go map lookup `v, ok := m[k]` on an association list. -/
def mapLookup {α : Type} (m : List (String × α)) (k : String) : Option α :=
  match m with
  | [] => none
  | (k0, v0) :: rest => if k0 = k then some v0 else mapLookup rest k

/-- The registry's table `games map[string]*Game` (`game/registry.go`),
modelled as an association list keyed by `Game.Key`. -/
abbrev Registry := List (String × Game)

/-- Embedding of `Registry.Add` from `game/registry.go`: looks the key up, sets
`FirstSeen := now` only when the key was absent, sets `LastSeen := now`
always, stores the (modified) argument under the key, and returns `true`
iff the game was newly added.  The Go code calls `time.Now()` twice;
both calls are modelled by the same instant `now`. -/
def Registry.Add (r : Registry) (g : Game) (now : Nat) : Registry × Bool :=
  let key := g.Key
  let gexists := (mapLookup r key).isSome
  let g1 := if gexists then g else { g with FirstSeen := now }
  let g2 := { g1 with LastSeen := now }
  (mapSet r key g2, !gexists)

/-- Embedding of `Registry.snapshot` from `game/registry.go`: a freshly allocated slice
whose elements are the struct values `*g` of all stored games. -/
def Registry.snapshot (r : Registry) : List Game :=
  r.map (fun p => p.2)

/-- Embedding of `Registry.Games` from `game/registry.go`: returns `snapshot()`. -/
def Registry.Games (r : Registry) : List Game :=
  r.snapshot

/-- Embedding of `Registry.FindByHostCounter` from `game/registry.go`: scans the table for
a game with `Source == SourceRemote && Info.HostCounter == hostCounter` and
returns the struct value copy `gameCopy := *g`, or `nil`. -/
def Registry.FindByHostCounter (r : Registry) (hostCounter : Nat) : Option Game :=
  match r.find? (fun p =>
      decide (p.2.Source = Source.Remote ∧ p.2.Info.HostCounter = hostCounter)) with
  | some p => some p.2
  | none => none

/-- Go byte conversion `byte(x >> k)` on an unsigned integer: shift right by
`k` bits and truncate to one byte. -/
def byteAt (x k : Nat) : Nat :=
  (x >>> k) % 256

/-- Little-endian decoding of (the first) two bytes, used to state what "the
port in little-endian" means. -/
def fromLE16 (b : List Nat) : Nat :=
  b.getD 0 0 + 256 * b.getD 1 0

/-- Little-endian decoding of (the first) four bytes. -/
def fromLE32 (b : List Nat) : Nat :=
  b.getD 0 0 + 256 * b.getD 1 0 + 65536 * b.getD 2 0 + 16777216 * b.getD 3 0

/-- Embedding of `minPacketSize` from the LAN broadcaster: minimum valid GameInfo size. -/
def minPacketSize : Nat := 4

/-- Embedding of `portFieldSize` from the LAN broadcaster: the trailing port field width. -/
def portFieldSize : Nat := 2

/-- Embedding of `Broadcaster.sendRawGameInfo` from the LAN broadcaster: skip games whose
raw data is shorter than `minPacketSize`; otherwise copy the raw bytes into a
fresh buffer (`copy(data, g.RawData)` — the fresh `List` models the fresh
buffer, so the stored raw bytes are untouched), overwrite the final two bytes
with the proxy port in little-endian, and send the result.  Returns the
datagram sent, or `none` when the game is skipped. -/
def sendRawGameInfo (proxyPort : Nat) (raw : List Nat) : Option (List Nat) :=
  if raw.length < minPacketSize then none
  else
    let data := raw
    let portIdx := data.length - portFieldSize
    let data := data.set portIdx (byteAt proxyPort 0)
    let data := data.set (portIdx + 1) (byteAt proxyPort 8)
    some data

/-- Embedding of `Broadcaster.sendRefreshGame` from the LAN broadcaster: the 16-byte
RefreshGame packet `F7 32 10 00` followed by host counter, slots used and
slots available, each as `byte(x)`, `byte(x>>8)`, `byte(x>>16)`,
`byte(x>>24)`. -/
def sendRefreshGame (hostCounter slotsUsed slotsAvailable : Nat) : List Nat :=
  [0xF7, 0x32, 0x10, 0x00,
   byteAt hostCounter 0, byteAt hostCounter 8, byteAt hostCounter 16, byteAt hostCounter 24,
   byteAt slotsUsed 0, byteAt slotsUsed 8, byteAt slotsUsed 16, byteAt slotsUsed 24,
   byteAt slotsAvailable 0, byteAt slotsAvailable 8, byteAt slotsAvailable 16,
   byteAt slotsAvailable 24]

/-- Embedding of `Broadcaster.sendDecreateGame` from the LAN broadcaster: the 8-byte
DecreateGame packet `F7 33 08 00` followed by the host counter in
little-endian. -/
def sendDecreateGame (hostCounter : Nat) : List Nat :=
  [0xF7, 0x33, 0x08, 0x00,
   byteAt hostCounter 0, byteAt hostCounter 8, byteAt hostCounter 16, byteAt hostCounter 24]

/-- A datagram emitted by one broadcast tick, tagged with which of the three
packet kinds produced it. -/
inductive Packet where
  | gameInfo (data : List Nat)
  | refreshGame (data : List Nat)
  | decreateGame (data : List Nat)
deriving DecidableEq

/-- Whether a packet is a DecreateGame cancellation. -/
def Packet.isDecreate : Packet → Bool
  | .decreateGame _ => true
  | _ => false

/-- One iteration of the announcement loop of `Broadcaster.broadcastGames`:
skip non-remote games; otherwise record `currentKeys[key] = hostCounter`,
forward the raw packet with the port rewritten (when long enough) and send
the RefreshGame packet.  The accumulator carries the emitted packets and the
`currentKeys` map. -/
def announceStep (proxyPort : Nat) (acc : List Packet × List (String × Nat))
    (g : Game) : List Packet × List (String × Nat) :=
  if g.Source ≠ Source.Remote then acc
  else
    let current := mapSet acc.2 g.Key g.Info.HostCounter
    let ann :=
      match sendRawGameInfo proxyPort g.RawData with
      | some data => [Packet.gameInfo data]
      | none => []
    (acc.1 ++ ann ++
       [Packet.refreshGame
         (sendRefreshGame g.Info.HostCounter g.Info.SlotsUsed g.Info.SlotsAvailable)],
     current)

/-- One iteration of the cancellation loop of `Broadcaster.broadcastGames`:
for a `(key, hostCounter)` entry of `previousGameKeys`, emit a DecreateGame
packet iff the key is absent from `currentKeys`. -/
def decreateStep (current : List (String × Nat)) (out : List Packet)
    (p : String × Nat) : List Packet :=
  if (mapLookup current p.1).isSome then out
  else out ++ [Packet.decreateGame (sendDecreateGame p.2)]

/-- Embedding of `Broadcaster.broadcastGames` from the LAN broadcaster: run the
announcement loop over the cached games (building `currentKeys`), then the
cancellation loop over `previousGameKeys`, and return the emitted packets in
order together with the new `previousGameKeys`.  The Go code iterates
`previousGameKeys` in arbitrary map order; the model iterates it in list
order, and only order-insensitive facts are claimed about that segment. -/
def broadcastGames (prev : List (String × Nat)) (games : List Game)
    (proxyPort : Nat) : List Packet × List (String × Nat) :=
  let a := games.foldl (announceStep proxyPort) ([], [])
  let out := prev.foldl (decreateStep a.2) a.1
  (out, a.2)

/-- Modelled from the spec: the current tick's remote-game key set,
`removed = prev \ current` being stated against it — the map from each remote
game's key to its host counter ("maintain, across ticks, a snapshot of the
Remote keys seen last tick").  Compared below with the `currentKeys` map that
`broadcastGames` builds. -/
def remoteKeys (games : List Game) : List (String × Nat) :=
  games.foldl
    (fun m g => if g.Source = Source.Remote then mapSet m g.Key g.Info.HostCounter else m)
    []

/-- Modelled from the spec: the entries removed since the previous tick
(`removed = prev \ current`). -/
def removedOf (prev : List (String × Nat)) (games : List Game) :
    List (String × Nat) :=
  prev.filter (fun p => !(mapLookup (remoteKeys games) p.1).isSome)

/-- The DecreateGame packets for a list of removed `(key, hostCounter)`
entries. -/
def decreatePkts (l : List (String × Nat)) : List Packet :=
  l.map (fun p => Packet.decreateGame (sendDecreateGame p.2))

/-- Store of byte arrays: the heap backing Go `[]byte` values in the memory
model of the registry. -/
abbrev Store := List (List Nat)

/-- Embedding of `game.Game` in the memory model: identical to `Game` except that
`RawData` is the index of the backing byte array in the `Store`, making the
Go slice header explicit.  A Go struct assignment (`result = append(result, *g)`,
`gameCopy := *g`) copies this index, not the bytes. -/
structure GameM where
  Info : GameInfo
  RawData : Nat
  Source : Source
  PeerIP : String
  PeerName : String
  FirstSeen : Nat
  LastSeen : Nat
deriving DecidableEq

/-- The registry table in the memory model. -/
abbrev RegistryM := List (String × GameM)

/-- Reading the byte array a slice reference points at. -/
def storeRead (st : Store) (ref : Nat) : List Nat :=
  st.getD ref []

/-- Writing one byte through a slice reference (`raw[i] = v` on a `[]byte`
held by any alias of the slice). -/
def storeWriteByte (st : Store) (ref i v : Nat) : Store :=
  st.set ref ((st.getD ref []).set i v)

/-- Embedding of `Registry.snapshot` in the memory model: `result = append(result, *g)`
copies each stored struct value — the `RawData` slice header included, so the
copies keep the same backing-array reference. -/
def RegistryM.snapshot (r : RegistryM) : List GameM :=
  r.map (fun p => p.2)

/-- Embedding of `Registry.FindByHostCounter` in the memory model: `gameCopy := *g` is a
struct value copy keeping the same `RawData` backing-array reference. -/
def RegistryM.FindByHostCounter (r : RegistryM) (hostCounter : Nat) :
    Option GameM :=
  match r.find? (fun p =>
      decide (p.2.Source = Source.Remote ∧ p.2.Info.HostCounter = hostCounter)) with
  | some p => some p.2
  | none => none

/-- The raw bytes a registry read observes for each stored game, resolved
through the store. -/
def RegistryM.rawReads (r : RegistryM) (st : Store) : List (List Nat) :=
  r.map (fun p => storeRead st p.2.RawData)

/-- The first packet of a TCP connection as the proxy classifies it: the
result of `w3gs.Deserialize`, which the model keeps abstract — a `Join`
carrying host counter and player name, or anything else. -/
inductive W3Packet where
  | join (hostCounter : Nat) (playerName : String)
  | other
deriving DecidableEq

/-- Observable outcome of `TCPProxy.handleConnection` up to the start of the
splice: which origin address was dialed (if any), the initial bytes written
to the origin (if any), whether the unknown-game warning was logged, and the
bytes written back to the client before the splice (the handler itself never
writes to the client). -/
structure ConnResult where
  dialedAddr : Option (String × Nat)
  originWrite : Option (List Nat)
  warned : Bool
  clientWrite : List Nat
deriving DecidableEq

/-- Embedding of `maxJoinPacketSize` from `proxy/tcp.go`. -/
def maxJoinPacketSize : Nat := 512

/-- Embedding of `TCPProxy.readJoinPacket` from `proxy/tcp.go`: `received` is the byte
sequence the single `conn.Read` into the 512-byte buffer returned
(`initialPacket := buf[:n]`).  The packet is deserialized (`deserialize`
stands for the external `w3gs.Deserialize`); anything other than a `Join`
fails.  On success the host counter, player name and the untouched initial
buffer are returned. -/
def readJoinPacket (deserialize : List Nat → Option W3Packet)
    (received : List Nat) : Option (Nat × String × List Nat) :=
  let initialPacket := received
  match deserialize initialPacket with
  | some (W3Packet.join hostCounter playerName) =>
      some (hostCounter, playerName, initialPacket)
  | _ => none

/-- Embedding of `TCPProxy.handleConnection` from `proxy/tcp.go`, up to the start of the
splice: read and parse the Join packet (failure closes the client with
nothing dialed, nothing written, no warning), look the host counter up with
`FindByHostCounter` (failure logs the warning and closes the client with
nothing dialed and nothing written), dial `game.PeerIP : game.Info.GamePort`
(`dialOk` says whether the dial succeeded), and write the original initial
buffer to the origin. -/
def handleConnection (deserialize : List Nat → Option W3Packet) (r : Registry)
    (dialOk : Bool) (received : List Nat) : ConnResult :=
  match readJoinPacket deserialize received with
  | none => { dialedAddr := none, originWrite := none, warned := false, clientWrite := [] }
  | some (hostCounter, _, initialPacket) =>
    match r.FindByHostCounter hostCounter with
    | none => { dialedAddr := none, originWrite := none, warned := true, clientWrite := [] }
    | some g =>
      let addr := (g.PeerIP, g.Info.GamePort)
      if dialOk then
        { dialedAddr := some addr, originWrite := some initialPacket, warned := false,
          clientWrite := [] }
      else
        { dialedAddr := some addr, originWrite := none, warned := false, clientWrite := [] }

/-- Embedding of `w3gs.GameVersion`: product code and `uint32` version. -/
structure GameVersion where
  Product : Nat
  Version : Nat
deriving DecidableEq

/-- Embedding of `tailscale.Peer`: name, overlay IPv4 address, online flag, OS label. -/
structure Peer where
  Name : String
  IP : String
  Online : Bool
  OS : String
deriving DecidableEq

/-- Embedding of `w3gs.SearchGame` as the probe engine fills it: the configured version
and a zero host-counter placeholder. -/
structure SearchGame where
  GameVersion : GameVersion
  HostCounter : Nat
deriving DecidableEq

/-- A UDP datagram sent by one probe cycle. -/
structure Datagram where
  destIP : String
  destPort : Nat
  payload : SearchGame
deriving DecidableEq

/-- Embedding of `lan.DefaultPort`, the standard WC3 LAN port. -/
def DefaultPort : Nat := 6112

/-- Embedding of `Manager.probeLocal` from `peer/manager.go`: one SearchGame to
`127.0.0.1:6112` with host counter 0. -/
def probeLocal (version : GameVersion) : Datagram :=
  { destIP := "127.0.0.1", destPort := DefaultPort,
    payload := { GameVersion := version, HostCounter := 0 } }

/-- Embedding of `Manager.probePeer` from `peer/manager.go`: one SearchGame to
`peerIP:6112` with host counter 0. -/
def probePeer (peerIP : String) (version : GameVersion) : Datagram :=
  { destIP := peerIP, destPort := DefaultPort,
    payload := { GameVersion := version, HostCounter := 0 } }

/-- Embedding of `Manager.probeAllPeers` from `peer/manager.go`: snapshot peers and
version under the lock; if the version is zero, return without sending;
otherwise probe localhost, then every online peer.  Returns the datagrams
sent, in order. -/
def probeAllPeers (version : GameVersion) (peers : List Peer) : List Datagram :=
  if version.Version = 0 then []
  else
    peers.foldl
      (fun out p => if p.Online then out ++ [probePeer p.IP version] else out)
      [probeLocal version]

/-- The probe engine's mutable state: configured version and peer list. -/
structure Manager where
  version : GameVersion
  peers : List Peer
deriving DecidableEq

/-- One ticker-driven probe cycle (`Manager.Run` calls `probeAllPeers`). -/
def Manager.tick (m : Manager) : List Datagram :=
  probeAllPeers m.version m.peers

/-- Embedding of `Manager.Refresh` from `peer/manager.go`: an immediate `probeAllPeers`. -/
def Manager.Refresh (m : Manager) : List Datagram :=
  probeAllPeers m.version m.peers

/-- Embedding of `Manager.SetVersion` from `peer/manager.go`. -/
def Manager.SetVersion (m : Manager) (version : GameVersion) : Manager :=
  { m with version := version }

/-- Embedding of `Manager.OnPeersChanged` from `peer/manager.go`: replace the peer list,
then probe immediately.  Returns the new state and the datagrams sent. -/
def Manager.OnPeersChanged (m : Manager) (peers : List Peer) :
    Manager × List Datagram :=
  let m2 := { m with peers := peers }
  (m2, probeAllPeers m2.version m2.peers)

/-- The ASCII digit character for `d < 10`, as `fmt.Sprintf("%d", ...)`
renders digits. -/
def digitChar (d : Nat) : Char :=
  Char.ofNat (48 + d)

/-- The decimal digit characters of `n`, most significant first: the
rendering `fmt.Sprintf("%d", v)` produces for an unsigned integer. -/
def decDigits (n : Nat) : List Char :=
  if n < 10 then [digitChar n]
  else decDigits (n / 10) ++ [digitChar (n % 10)]
termination_by n
decreasing_by exact Nat.div_lt_self (by omega) (by omega)

/-- Embedding of `config.FormatVersion` from `config/config.go`:
`fmt.Sprintf("1.%d", v)`. -/
def FormatVersion (v : Nat) : String :=
  String.mk ('1' :: '.' :: decDigits v)

/-- The whitespace predicate of `strings.TrimSpace`, restricted to the ASCII
whitespace characters (the only ones relevant to version strings). -/
def isSpaceChar (c : Char) : Bool :=
  c = ' ' || c = '\t' || c = '\n' || c = '\r'

/-- Embedding of `strings.TrimSpace`: drop leading and trailing whitespace. -/
def trimSpace (l : List Char) : List Char :=
  ((l.dropWhile isSpaceChar).reverse.dropWhile isSpaceChar).reverse

/-- Embedding of `strconv.ParseUint(s, 10, 32)`: fails on the empty string, on any
non-digit character and on values that do not fit in 32 bits; otherwise
returns the decimal value. -/
def parseUint32 (l : List Char) : Option Nat :=
  if l = [] then none
  else if l.all Char.isDigit then
    let v := l.foldl (fun acc c => acc * 10 + (c.toNat - 48)) 0
    if v < 2 ^ 32 then some v else none
  else none

/-- Embedding of `config.ParseVersion` from `config/config.go`: trim whitespace, strip a
leading `"1."` if present (`strings.CutPrefix`), parse the remainder as an
unsigned 32-bit decimal. -/
def ParseVersion (s : String) : Option Nat :=
  let l := trimSpace s.data
  let l2 := if l.take 2 = ['1', '.'] then l.drop 2 else l
  parseUint32 l2

/-- A remote game exactly as `Manager.handleGameInfo` constructs one before
calling `Registry.Add`: the `FirstSeen` / `LastSeen` fields are left at their
zero values. -/
def demoGame : Game :=
  { Info := { GameName := "g1", HostCounter := 7, SlotsUsed := 1, SlotsTotal := 8,
              SlotsAvailable := 8, GamePort := 6112 },
    RawData := [247, 48, 8, 0],
    Source := Source.Remote,
    PeerIP := "100.64.0.2",
    PeerName := "p1",
    FirstSeen := 0,
    LastSeen := 0 }

/-- C1: evaluation of `Registry.Add` at the failing input.  Adding `demoGame`
to the empty registry at time 5 returns `true` and records
`FirstSeen = LastSeen = 5`; adding the identical game again at time 8 returns
`false` and advances `LastSeen` to 8 — but the stored `FirstSeen` becomes the
caller-supplied zero value instead of the 5 recorded at first insertion,
because `Add` stores the passed struct without carrying the old `FirstSeen`
forward.  The return-value and `LastSeen` clauses of the claim hold; the
`FirstSeen`-preservation clause does not. -/
theorem registry_add_firstSeen_not_preserved :
    (Registry.Add [] demoGame 5).2 = true ∧
    (Registry.Add (Registry.Add [] demoGame 5).1 demoGame 8).2 = false ∧
    (mapLookup (Registry.Add [] demoGame 5).1 demoGame.Key).map Game.FirstSeen
      = some 5 ∧
    (mapLookup (Registry.Add [] demoGame 5).1 demoGame.Key).map Game.LastSeen
      = some 5 ∧
    (mapLookup (Registry.Add (Registry.Add [] demoGame 5).1 demoGame 8).1
        demoGame.Key).map Game.LastSeen = some 8 ∧
    (mapLookup (Registry.Add (Registry.Add [] demoGame 5).1 demoGame 8).1
        demoGame.Key).map Game.FirstSeen = some 0 := by
  decide

/-- C5: amended `FindByHostCounter` contract.  Any returned game is one of
the stored games (a struct value copy — see the companion counterexample for
the `RawData` aliasing), is Remote, and has the requested host counter; when
some stored Remote game has the requested host counter the lookup succeeds;
when none does — in particular for `hostCounter = 0` with no Remote game of
host counter 0, even if a Local game has it — the lookup returns nothing. -/
theorem findByHostCounter_spec (r : Registry) (hostCounter : Nat) :
    (∀ g, r.FindByHostCounter hostCounter = some g →
        g ∈ r.snapshot ∧ g.Source = Source.Remote ∧
          g.Info.HostCounter = hostCounter)
    ∧ ((∃ p ∈ r, p.2.Source = Source.Remote ∧ p.2.Info.HostCounter = hostCounter) →
        (r.FindByHostCounter hostCounter).isSome = true)
    ∧ ((∀ p ∈ r, ¬(p.2.Source = Source.Remote ∧ p.2.Info.HostCounter = hostCounter)) →
        r.FindByHostCounter hostCounter = none) := by
  unfold Registry.FindByHostCounter
  refine ⟨?_, ?_, ?_⟩
  · intro g hg
    cases hfind : r.find? (fun p =>
        decide (p.2.Source = Source.Remote ∧ p.2.Info.HostCounter = hostCounter)) with
    | none => rw [hfind] at hg; exact absurd hg (by simp)
    | some p =>
      rw [hfind] at hg
      have hp0 := List.find?_some hfind
      have hp : p.2.Source = Source.Remote ∧ p.2.Info.HostCounter = hostCounter := by
        simpa using hp0
      have hmem : p ∈ r := List.mem_of_find?_eq_some hfind
      injection hg with hgp
      subst hgp
      exact ⟨List.mem_map_of_mem (fun q => q.2) hmem, hp.1, hp.2⟩
  · intro ⟨p, hmem, hp⟩
    have hs : (r.find? (fun p =>
        decide (p.2.Source = Source.Remote ∧ p.2.Info.HostCounter = hostCounter))).isSome = true := by
      rw [List.find?_isSome]
      exact ⟨p, hmem, decide_eq_true hp⟩
    cases hfind : r.find? (fun p =>
        decide (p.2.Source = Source.Remote ∧ p.2.Info.HostCounter = hostCounter)) with
    | none => rw [hfind] at hs; simp at hs
    | some q => rfl
  · intro hnone
    have hn : r.find? (fun p =>
        decide (p.2.Source = Source.Remote ∧ p.2.Info.HostCounter = hostCounter)) = none := by
      rw [List.find?_eq_none]
      intro p hmem
      simpa using hnone p hmem
    rw [hn]

/-- A locally hosted game with host counter 0, for the boundary behavior of
`FindByHostCounter`. -/
def demoLocalGame : Game :=
  { Info := { GameName := "g0", HostCounter := 0, SlotsUsed := 1, SlotsTotal := 2,
              SlotsAvailable := 2, GamePort := 6112 },
    RawData := [247, 48, 8, 0],
    Source := Source.Local,
    PeerIP := "",
    PeerName := "local",
    FirstSeen := 0,
    LastSeen := 0 }

/-- C5 witness: in a registry holding only a Local game whose host counter is
0, `FindByHostCounter 0` returns nothing. -/
theorem findByHostCounter_spec_witness :
    Registry.FindByHostCounter [("local:g0", demoLocalGame)] 0 = none :=
  (findByHostCounter_spec [("local:g0", demoLocalGame)] 0).2.2 (by decide)

/-- A stored remote game in the memory model whose raw bytes live at store
index 0. -/
def demoGameM : GameM :=
  { Info := { GameName := "g1", HostCounter := 7, SlotsUsed := 1, SlotsTotal := 8,
              SlotsAvailable := 8, GamePort := 6112 },
    RawData := 0,
    Source := Source.Remote,
    PeerIP := "100.64.0.2",
    PeerName := "p1",
    FirstSeen := 0,
    LastSeen := 0 }

/-- A one-game registry in the memory model. -/
def demoRegM : RegistryM := [("100.64.0.2:g1", demoGameM)]

/-- The store backing `demoRegM`: the game's raw bytes are `[1, 2, 3]`. -/
def demoStore : Store := [[1, 2, 3]]

/-- C5 counterexample: the game `FindByHostCounter` returns is not a deep
copy.  Writing the byte 9 at index 0 through the returned game's `RawData`
slice changes the raw bytes every subsequent registry read observes from
`[[1, 2, 3]]` to `[[9, 2, 3]]`. -/
theorem findByHostCounter_not_deep_copy :
    ((RegistryM.FindByHostCounter demoRegM 7).map
        (fun g => RegistryM.rawReads demoRegM (storeWriteByte demoStore g.RawData 0 9)))
      = some [[9, 2, 3]] ∧
    RegistryM.rawReads demoRegM demoStore = [[1, 2, 3]] := by
  decide

/-- C2 counterexample: a snapshot returned by `Games()` is not independent
of internal storage.  Writing the byte 9 at index 0 through the `RawData`
slice of the snapshot's first element changes the raw bytes every subsequent
registry read observes from `[[1, 2, 3]]` to `[[9, 2, 3]]`. -/
theorem games_snapshot_not_independent :
    ((RegistryM.snapshot demoRegM).head?.map
        (fun g => RegistryM.rawReads demoRegM (storeWriteByte demoStore g.RawData 0 9)))
      = some [[9, 2, 3]] ∧
    RegistryM.rawReads demoRegM demoStore = [[1, 2, 3]] := by
  decide

/-- Writing a byte through a slice reference and reading the same reference
back observes the write. -/
theorem storeRead_write_self (st : Store) (ref i v : Nat) (h : ref < st.length) :
    storeRead (storeWriteByte st ref i v) ref = (storeRead st ref).set i v := by
  unfold storeRead storeWriteByte
  induction st generalizing ref with
  | nil => simp at h
  | cons hd tl ih =>
    cases ref with
    | zero => simp
    | succ n =>
      have hn : n < tl.length := by simpa using h
      simpa using ih n hn

/-- C2: amended snapshot-independence.  Snapshots are struct value copies,
but every element's `RawData` slice shares its backing byte array with
internal storage: writing any differing byte through a snapshot element's
`RawData` changes the raw bytes subsequent registry reads observe. -/
theorem games_snapshot_rawData_aliased (r : RegistryM) (st : Store) (gm : GameM)
    (i v : Nat) (hmem : gm ∈ RegistryM.snapshot r)
    (hi : i < (storeRead st gm.RawData).length)
    (hv : (storeRead st gm.RawData).getD i 0 ≠ v) :
    RegistryM.rawReads r (storeWriteByte st gm.RawData i v)
      ≠ RegistryM.rawReads r st := by
  obtain ⟨p, hp, hpg⟩ := List.mem_map.mp hmem
  obtain ⟨idx, hidx, hgetp⟩ := List.mem_iff_getElem.mp hp
  have href : gm.RawData < st.length := by
    by_contra hge
    have : storeRead st gm.RawData = [] := by
      unfold storeRead
      exact List.getD_eq_default _ _ (by omega)
    rw [this] at hi
    simp at hi
  intro heq
  have h1 : (RegistryM.rawReads r (storeWriteByte st gm.RawData i v))[idx]?
      = (RegistryM.rawReads r st)[idx]? := by rw [heq]
  unfold RegistryM.rawReads at h1
  rw [List.getElem?_map, List.getElem?_map, List.getElem?_eq_getElem hidx, hgetp] at h1
  simp only [Option.map_some'] at h1
  rw [hpg] at h1
  have h2 : storeRead (storeWriteByte st gm.RawData i v) gm.RawData
      = storeRead st gm.RawData := Option.some.inj h1
  rw [storeRead_write_self st gm.RawData i v href] at h2
  have h3 : ((storeRead st gm.RawData).set i v).getD i 0
      = (storeRead st gm.RawData).getD i 0 := by rw [h2]
  rw [List.getD_eq_getElem _ _ (by simpa using hi),
      List.getD_eq_getElem _ _ hi, List.getElem_set_self] at h3
  rw [List.getD_eq_getElem _ _ hi] at hv
  exact hv h3.symm

/-- C2 witness of the amended theorem: in the concrete one-game registry,
writing the differing byte 9 at index 0 through the snapshot element's
`RawData` changes subsequent registry reads. -/
theorem games_snapshot_rawData_aliased_witness :
    RegistryM.rawReads demoRegM (storeWriteByte demoStore demoGameM.RawData 0 9)
      ≠ RegistryM.rawReads demoRegM demoStore :=
  games_snapshot_rawData_aliased demoRegM demoStore demoGameM 0 9
    (by decide) (by decide) (by decide)

/-- Overwriting both positions of a length-2 list. -/
theorem set_set_pair (l : List Nat) (a b : Nat) (h : l.length = 2) :
    (l.set 0 a).set 1 b = [a, b] := by
  match l, h with
  | [x, y], _ => rfl

/-- Overwriting the last two positions of a list of length at least 4 leaves
the prefix untouched and replaces the final two elements. -/
theorem set_last_two (raw : List Nat) (a b : Nat) (h : 4 ≤ raw.length) :
    ((raw.set (raw.length - 2) a).set (raw.length - 2 + 1) b).take (raw.length - 2)
        = raw.take (raw.length - 2)
      ∧ ((raw.set (raw.length - 2) a).set (raw.length - 2 + 1) b).drop (raw.length - 2)
        = [a, b] := by
  constructor
  · rw [List.set_take, List.set_take]
    rw [List.set_eq_of_length_le (by simp [List.length_take]; try omega)]
    rw [List.set_eq_of_length_le (by simp [List.length_take]; try omega)]
  · rw [List.drop_set, if_neg (by omega)]
    rw [List.drop_set, if_neg (by omega)]
    have e1 : raw.length - 2 + 1 - (raw.length - 2) = 1 := by omega
    have e2 : raw.length - 2 - (raw.length - 2) = 0 := by omega
    rw [e1, e2]
    exact set_set_pair _ a b (by simp; omega)

/-- C3: every announcement datagram the broadcaster emits (raw data of
length at least `minPacketSize`) has the same length as the stored raw
bytes, agrees with them on every byte before the final two, and carries the
proxy port in little-endian in the final two bytes; the stored raw bytes are
untouched (`sendRawGameInfo` writes into a fresh copy). -/
theorem sendRawGameInfo_spec (proxyPort : Nat) (raw : List Nat)
    (h : minPacketSize ≤ raw.length) :
    ∃ data, sendRawGameInfo proxyPort raw = some data ∧
      data.length = raw.length ∧
      data.take (raw.length - 2) = raw.take (raw.length - 2) ∧
      data.drop (raw.length - 2) = [byteAt proxyPort 0, byteAt proxyPort 8] ∧
      (proxyPort < 65536 → fromLE16 (data.drop (raw.length - 2)) = proxyPort) := by
  unfold minPacketSize at h
  have hcase := set_last_two raw (byteAt proxyPort 0) (byteAt proxyPort 8) h
  refine ⟨(raw.set (raw.length - 2) (byteAt proxyPort 0)).set
      (raw.length - 2 + 1) (byteAt proxyPort 8), ?_, by simp, hcase.1, hcase.2, ?_⟩
  · simp only [sendRawGameInfo, minPacketSize, portFieldSize]
    rw [if_neg (by omega)]
  · intro hport
    rw [hcase.2]
    unfold fromLE16 byteAt
    simp only [Nat.shiftRight_eq_div_pow]
    simp only [List.getD_cons_zero, List.getD_cons_succ]
    omega

/-- C3 witness: a concrete 6-byte raw packet rewritten for proxy port 50000. -/
theorem sendRawGameInfo_spec_witness :
    minPacketSize ≤ ([10, 20, 30, 40, 50, 60] : List Nat).length ∧
    ∃ data, sendRawGameInfo 50000 [10, 20, 30, 40, 50, 60] = some data ∧
      data.length = ([10, 20, 30, 40, 50, 60] : List Nat).length ∧
      data.take (([10, 20, 30, 40, 50, 60] : List Nat).length - 2)
        = ([10, 20, 30, 40, 50, 60] : List Nat).take
            (([10, 20, 30, 40, 50, 60] : List Nat).length - 2) ∧
      data.drop (([10, 20, 30, 40, 50, 60] : List Nat).length - 2)
        = [byteAt 50000 0, byteAt 50000 8] ∧
      (50000 < 65536 →
        fromLE16 (data.drop (([10, 20, 30, 40, 50, 60] : List Nat).length - 2)) = 50000) :=
  ⟨by decide, sendRawGameInfo_spec 50000 [10, 20, 30, 40, 50, 60] (by decide)⟩

/-- One announcement-loop iteration only appends packets, and never a
DecreateGame. -/
theorem announceStep_shape (proxyPort : Nat) (acc : List Packet × List (String × Nat))
    (g : Game) :
    ∃ extra, (announceStep proxyPort acc g).1 = acc.1 ++ extra ∧
      ∀ q ∈ extra, q.isDecreate = false := by
  unfold announceStep
  by_cases hsrc : g.Source ≠ Source.Remote
  · rw [if_pos hsrc]
    exact ⟨[], by simp, by simp⟩
  · rw [if_neg hsrc]
    cases hsr : sendRawGameInfo proxyPort g.RawData with
    | none =>
      refine ⟨[Packet.refreshGame
          (sendRefreshGame g.Info.HostCounter g.Info.SlotsUsed g.Info.SlotsAvailable)],
        by simp [hsr], ?_⟩
      intro q hq
      rw [List.mem_singleton.mp hq]
      rfl
    | some data =>
      refine ⟨[Packet.gameInfo data, Packet.refreshGame
          (sendRefreshGame g.Info.HostCounter g.Info.SlotsUsed g.Info.SlotsAvailable)],
        by simp [hsr], ?_⟩
      intro q hq
      rcases List.mem_cons.mp hq with h | h
      · rw [h]; rfl
      · rw [List.mem_singleton.mp h]; rfl

/-- The announcement loop of `broadcastGames` only appends packets to its
accumulator, and never a DecreateGame. -/
theorem announce_fst (proxyPort : Nat) (games : List Game) :
    ∀ acc0 : List Packet × List (String × Nat), ∃ ann,
      (games.foldl (announceStep proxyPort) acc0).1 = acc0.1 ++ ann ∧
      ∀ q ∈ ann, q.isDecreate = false := by
  induction games with
  | nil => intro acc0; exact ⟨[], by simp, by simp⟩
  | cons g gs ih =>
    intro acc0
    simp only [List.foldl_cons]
    obtain ⟨e, he, hed⟩ := announceStep_shape proxyPort acc0 g
    obtain ⟨ann, h1, h2⟩ := ih (announceStep proxyPort acc0 g)
    refine ⟨e ++ ann, ?_, ?_⟩
    · rw [h1, he, List.append_assoc]
    · intro q hq
      rcases List.mem_append.mp hq with h | h
      · exact hed q h
      · exact h2 q h

/-- The `currentKeys` map the announcement loop builds is the map from each
Remote game's key to its host counter. -/
theorem announce_snd (proxyPort : Nat) (games : List Game) :
    ∀ acc0 : List Packet × List (String × Nat),
      (games.foldl (announceStep proxyPort) acc0).2
        = games.foldl
            (fun m g =>
              if g.Source = Source.Remote then mapSet m g.Key g.Info.HostCounter else m)
            acc0.2 := by
  induction games with
  | nil => intro acc0; rfl
  | cons g gs ih =>
    intro acc0
    simp only [List.foldl_cons]
    rw [ih]
    congr 1
    by_cases hsrc : g.Source = Source.Remote <;> simp [announceStep, hsrc]

/-- The cancellation loop of `broadcastGames` appends exactly one
DecreateGame packet for each entry of `previousGameKeys` whose key is absent
from `currentKeys`, in iteration order. -/
theorem decreate_foldl (current : List (String × Nat)) (prev : List (String × Nat)) :
    ∀ out, prev.foldl (decreateStep current) out
      = out ++ (prev.filter (fun p => !(mapLookup current p.1).isSome)).map
          (fun p => Packet.decreateGame (sendDecreateGame p.2)) := by
  induction prev with
  | nil => intro out; simp
  | cons p ps ih =>
    intro out
    simp only [List.foldl_cons, List.filter_cons]
    by_cases hc : (mapLookup current p.1).isSome
    · rw [show decreateStep current out p = out from by simp [decreateStep, hc]]
      rw [ih out]
      simp [hc]
    · rw [show decreateStep current out p
          = out ++ [Packet.decreateGame (sendDecreateGame p.2)] from by
        simp [decreateStep, hc]]
      rw [ih]
      simp [hc, List.append_assoc]

/-- In a list of keyed entries with pairwise-distinct keys, filtering for a
present key `k` (whose entry also satisfies `pr`) yields exactly that one
entry. -/
theorem filter_key_nodup {β : Type} (pr : String × β → Bool) (k : String) (hc : β) :
    ∀ prev : List (String × β), (prev.map Prod.fst).Nodup → (k, hc) ∈ prev →
      pr (k, hc) = true →
      prev.filter (fun p => (p.1 == k) && pr p) = [(k, hc)] := by
  intro prev
  induction prev with
  | nil => intro _ hmem _; simp at hmem
  | cons q qs ih =>
    intro hnd hmem hpr
    rw [List.map_cons, List.nodup_cons] at hnd
    obtain ⟨hq1, hnd2⟩ := hnd
    rw [List.filter_cons]
    rcases List.mem_cons.mp hmem with heq | hmem2
    · rw [← heq] at hq1 ⊢
      rw [if_pos (by simp [hpr])]
      have hnil : qs.filter (fun p => (p.1 == k) && pr p) = [] := by
        rw [List.filter_eq_nil_iff]
        intro a ha
        simp only [Bool.and_eq_true, beq_iff_eq, not_and]
        intro hak
        refine absurd ?_ hq1
        show k ∈ qs.map Prod.fst
        rw [← hak]
        exact List.mem_map_of_mem Prod.fst ha
      rw [hnil]
    · have hqk : (q.1 == k) = false := by
        simp only [beq_eq_false_iff_ne, ne_eq]
        intro hq
        apply hq1
        rw [hq]
        exact List.mem_map_of_mem Prod.fst hmem2
      rw [if_neg (by simp [hqk])]
      exact ih hnd2 hmem2 hpr

/-- C4: cancellation completeness of one broadcast tick.  With the previous
tick's keys pairwise distinct (they come from a Go map): the new
`previousGameKeys` is the current remote-key map; the emitted packets are
the announcements (none of which is a DecreateGame) followed by exactly the
DecreateGame packets of the removed entries `prev \ current`; each key
recorded last tick but absent now contributes exactly one removed entry,
carrying its last-known host counter; and every removed entry comes from
`prev` with its key absent from the current map — so keys present in both
ticks, or newly present, produce no DecreateGame. -/
theorem broadcastGames_cancellation (prev : List (String × Nat)) (games : List Game)
    (proxyPort : Nat) (hnd : (prev.map Prod.fst).Nodup) :
    (broadcastGames prev games proxyPort).2 = remoteKeys games
    ∧ (∃ ann, (broadcastGames prev games proxyPort).1
         = ann ++ decreatePkts (removedOf prev games)
         ∧ ∀ q ∈ ann, q.isDecreate = false)
    ∧ (∀ k hc, (k, hc) ∈ prev → mapLookup (remoteKeys games) k = none →
         (removedOf prev games).filter (fun p => p.1 == k) = [(k, hc)])
    ∧ (∀ p ∈ removedOf prev games,
         p ∈ prev ∧ mapLookup (remoteKeys games) p.1 = none) := by
  refine ⟨?_, ?_, ?_, ?_⟩
  · simp only [broadcastGames]
    rw [announce_snd proxyPort games ([], [])]
    rfl
  · obtain ⟨ann, h1, h2⟩ := announce_fst proxyPort games ([], [])
    refine ⟨ann, ?_, h2⟩
    simp only [broadcastGames]
    rw [decreate_foldl, announce_snd proxyPort games ([], []), h1]
    simp only [List.nil_append]
    rfl
  · intro k hc hmem hlk
    unfold removedOf
    rw [List.filter_filter]
    exact filter_key_nodup _ k hc prev hnd hmem (by simp [hlk])
  · intro p hp
    unfold removedOf at hp
    have hm := List.mem_filter.mp hp
    refine ⟨hm.1, ?_⟩
    have hb := hm.2
    cases hopt : mapLookup (remoteKeys games) p.1 with
    | none => rfl
    | some v => rw [hopt] at hb; simp at hb

/-- Previous-tick key map for the cancellation witness: the still-present
demo game plus an entry whose game has disappeared. -/
def demoPrev : List (String × Nat) := [("100.64.0.2:g1", 7), ("gone", 9)]

/-- C4 witness: with the demo game still present and the key `"gone"`
removed, the removed set contains exactly one entry for `"gone"`, carrying
its last-known host counter 9. -/
theorem broadcastGames_cancellation_witness :
    (removedOf demoPrev [demoGame]).filter (fun p => p.1 == "gone") = [("gone", 9)] :=
  (broadcastGames_cancellation demoPrev [demoGame] 70 (by decide)).2.2.1 "gone" 9
    (by decide) (by decide)

/-- C8: wire format of the control packets.  For 32-bit inputs the
RefreshGame packet is exactly 16 bytes `F7 32 10 00` followed by the host
counter, slots used and slots available, each 4-byte little-endian; the
DecreateGame packet is exactly 8 bytes `F7 33 08 00` followed by the host
counter 4-byte little-endian. -/
theorem control_packet_wire_format (hostCounter slotsUsed slotsAvailable : Nat)
    (h1 : hostCounter < 2 ^ 32) (h2 : slotsUsed < 2 ^ 32)
    (h3 : slotsAvailable < 2 ^ 32) :
    (sendRefreshGame hostCounter slotsUsed slotsAvailable).length = 16 ∧
    (sendRefreshGame hostCounter slotsUsed slotsAvailable).take 4
      = [0xF7, 0x32, 0x10, 0x00] ∧
    fromLE32 (((sendRefreshGame hostCounter slotsUsed slotsAvailable).drop 4).take 4)
      = hostCounter ∧
    fromLE32 (((sendRefreshGame hostCounter slotsUsed slotsAvailable).drop 8).take 4)
      = slotsUsed ∧
    fromLE32 ((sendRefreshGame hostCounter slotsUsed slotsAvailable).drop 12)
      = slotsAvailable ∧
    (sendDecreateGame hostCounter).length = 8 ∧
    (sendDecreateGame hostCounter).take 4 = [0xF7, 0x33, 0x08, 0x00] ∧
    fromLE32 ((sendDecreateGame hostCounter).drop 4) = hostCounter := by
  norm_num at h1 h2 h3
  unfold sendRefreshGame sendDecreateGame byteAt fromLE32
  refine ⟨by simp, by simp, ?_, ?_, ?_, by simp, by simp, ?_⟩ <;>
    · simp only [Nat.shiftRight_eq_div_pow, List.drop_succ_cons, List.drop_zero,
        List.take_succ_cons, List.take_zero, List.getD_cons_zero, List.getD_cons_succ]
      norm_num
      omega

/-- C8 witness: concrete packets for host counter 7, 1 slot used, 8 slots
available. -/
theorem control_packet_wire_format_witness :
    (sendRefreshGame 7 1 8).length = 16 ∧
    (sendRefreshGame 7 1 8).take 4 = [0xF7, 0x32, 0x10, 0x00] ∧
    fromLE32 (((sendRefreshGame 7 1 8).drop 4).take 4) = 7 ∧
    fromLE32 (((sendRefreshGame 7 1 8).drop 8).take 4) = 1 ∧
    fromLE32 ((sendRefreshGame 7 1 8).drop 12) = 8 ∧
    (sendDecreateGame 7).length = 8 ∧
    (sendDecreateGame 7).take 4 = [0xF7, 0x33, 0x08, 0x00] ∧
    fromLE32 ((sendDecreateGame 7).drop 4) = 7 :=
  control_packet_wire_format 7 1 8 (by decide) (by decide) (by decide)

/-- The probe fan-out loop visits exactly the online peers, in order. -/
theorem probe_foldl (version : GameVersion) (peers : List Peer) :
    ∀ out : List Datagram,
      peers.foldl
          (fun acc p => if p.Online then acc ++ [probePeer p.IP version] else acc) out
        = out ++ (peers.filter (fun p => p.Online)).map (fun p => probePeer p.IP version) := by
  induction peers with
  | nil => intro out; simp
  | cons p ps ih =>
    intro out
    simp only [List.foldl_cons, List.filter_cons]
    by_cases hp : p.Online
    · simp [hp, ih, List.append_assoc]
    · simp [hp, ih]

/-- C9: a zero stored version suppresses probing entirely — ticker-driven
cycles, `Refresh`, and `OnPeersChanged` all send no datagrams — while a
non-zero version makes each cycle send one SearchGame to `127.0.0.1:6112`
followed by one SearchGame to each online peer's IP on port 6112
(destinations as recorded in `probeLocal` / `probePeer`). -/
theorem version_zero_suppresses_probing (m : Manager) (ps : List Peer) :
    (m.version.Version = 0 →
       m.tick = [] ∧ m.Refresh = [] ∧ (m.OnPeersChanged ps).2 = [])
    ∧ (m.version.Version ≠ 0 →
       m.tick = probeLocal m.version
           :: (m.peers.filter (fun p => p.Online)).map (fun p => probePeer p.IP m.version)
         ∧ (m.OnPeersChanged ps).2 = probeLocal m.version
           :: (ps.filter (fun p => p.Online)).map (fun p => probePeer p.IP m.version))
    ∧ ((probeLocal m.version).destIP = "127.0.0.1"
         ∧ (probeLocal m.version).destPort = 6112
         ∧ ∀ ip, (probePeer ip m.version).destIP = ip
             ∧ (probePeer ip m.version).destPort = 6112) := by
  refine ⟨?_, ?_, rfl, rfl, fun ip => ⟨rfl, rfl⟩⟩
  · intro h0
    simp only [Manager.tick, Manager.Refresh, Manager.OnPeersChanged, probeAllPeers]
    simp [h0]
  · intro hne
    simp only [Manager.tick, Manager.OnPeersChanged, probeAllPeers]
    constructor
    · rw [if_neg hne, probe_foldl]
      simp
    · rw [if_neg hne, probe_foldl]
      simp

/-- An online demo peer for the probe witness. -/
def demoPeer : Peer := { Name := "p1", IP := "100.64.0.2", Online := true, OS := "linux" }

/-- C9 witness: with the version zero, a tick of a manager knowing one
online peer sends nothing; with version 26, it sends the loopback probe
followed by the probe of that peer. -/
theorem version_zero_suppresses_probing_witness :
    Manager.tick { version := { Product := 0, Version := 0 }, peers := [demoPeer] } = []
    ∧ Manager.tick { version := { Product := 0, Version := 26 }, peers := [demoPeer] }
      = [probeLocal { Product := 0, Version := 26 },
         probePeer "100.64.0.2" { Product := 0, Version := 26 }] :=
  ⟨((version_zero_suppresses_probing
      { version := { Product := 0, Version := 0 }, peers := [demoPeer] } []).1 rfl).1,
   by
    have h := ((version_zero_suppresses_probing
        { version := { Product := 0, Version := 26 }, peers := [demoPeer] } []).2.1
        (by decide)).1
    rw [h]
    decide⟩

/-- C6: join forwarding round-trip.  For a connection whose first read (at
most 512 bytes) deserializes to a Join and whose host counter resolves to a
registered Remote game, the byte sequence written to the origin before
splicing begins is exactly the byte sequence read from the client, and the
origin dialed is the game's `PeerIP : Info.GamePort`. -/
theorem join_forwarded_verbatim (deserialize : List Nat → Option W3Packet)
    (r : Registry) (received : List Nat) (hostCounter : Nat) (playerName : String)
    (g : Game)
    (_hlen : received.length ≤ maxJoinPacketSize)
    (hdes : deserialize received = some (W3Packet.join hostCounter playerName))
    (hfind : r.FindByHostCounter hostCounter = some g) :
    (handleConnection deserialize r true received).originWrite = some received ∧
    (handleConnection deserialize r true received).dialedAddr
      = some (g.PeerIP, g.Info.GamePort) := by
  simp only [handleConnection, readJoinPacket, hdes, hfind]
  exact ⟨rfl, rfl⟩

/-- The Join packet bytes used by the proxy witnesses. -/
def demoJoinBytes : List Nat := [247, 30, 8, 0, 7, 0, 0, 0]

/-- A concrete stand-in for `w3gs.Deserialize` that recognises
`demoJoinBytes` as a Join with host counter 7. -/
def demoDeserialize : List Nat → Option W3Packet := fun bs =>
  if bs = demoJoinBytes then some (W3Packet.join 7 "player") else none

/-- A registry holding the demo remote game (host counter 7). -/
def demoReg : Registry := [("100.64.0.2:g1", demoGame)]

/-- C6 witness: the demo Join bytes are forwarded verbatim to the origin of
the demo game. -/
theorem join_forwarded_verbatim_witness :
    (handleConnection demoDeserialize demoReg true demoJoinBytes).originWrite
      = some demoJoinBytes :=
  (join_forwarded_verbatim demoDeserialize demoReg demoJoinBytes 7 "player" demoGame
    (by decide) (by decide) (by decide)).1

/-- C7: a Join whose host counter matches no Remote game makes the proxy
close the client with no origin dialed, nothing written to the origin,
nothing written back to the client, and the warning logged. -/
theorem unknown_hostCounter_closes (deserialize : List Nat → Option W3Packet)
    (r : Registry) (dialOk : Bool) (received : List Nat) (hostCounter : Nat)
    (playerName : String)
    (hdes : deserialize received = some (W3Packet.join hostCounter playerName))
    (hfind : r.FindByHostCounter hostCounter = none) :
    handleConnection deserialize r dialOk received
      = { dialedAddr := none, originWrite := none, warned := true,
          clientWrite := [] } := by
  simp only [handleConnection, readJoinPacket, hdes, hfind]

/-- C7 witness: a Join with host counter 99 against the demo registry (whose
only game has host counter 7) is closed with no dial, no writes and the
warning logged. -/
theorem unknown_hostCounter_closes_witness :
    handleConnection (fun bs => if bs = [1] then some (W3Packet.join 99 "player") else none)
        demoReg true [1]
      = { dialedAddr := none, originWrite := none, warned := true,
          clientWrite := [] } :=
  unknown_hostCounter_closes _ demoReg true [1] 99 "player" (by decide) (by decide)

/-- A digit character has the expected code point. -/
theorem digitChar_toNat (d : Nat) (h : d < 10) : (digitChar d).toNat = 48 + d := by
  interval_cases d <;> decide

/-- A digit character is a digit. -/
theorem digitChar_isDigit (d : Nat) (h : d < 10) : (digitChar d).isDigit = true := by
  interval_cases d <;> decide

/-- The decimal rendering is never empty. -/
theorem decDigits_ne_nil (n : Nat) : decDigits n ≠ [] := by
  rw [decDigits]
  by_cases h : n < 10 <;> simp [h]

/-- Every character of the decimal rendering is a digit. -/
theorem mem_decDigits_isDigit (n : Nat) : ∀ c ∈ decDigits n, c.isDigit = true := by
  induction n using Nat.strong_induction_on with
  | _ n ih =>
    intro c hc
    rw [decDigits] at hc
    by_cases h : n < 10
    · rw [if_pos h] at hc
      rw [List.mem_singleton.mp hc]
      exact digitChar_isDigit n h
    · rw [if_neg h] at hc
      rcases List.mem_append.mp hc with h1 | h1
      · exact ih (n / 10) (Nat.div_lt_self (by omega) (by omega)) c h1
      · rw [List.mem_singleton.mp h1]
        exact digitChar_isDigit (n % 10) (Nat.mod_lt _ (by omega))

/-- Folding the decimal parser over the decimal rendering recovers the
value. -/
theorem parseVal_decDigits (n : Nat) :
    (decDigits n).foldl (fun acc c => acc * 10 + (c.toNat - 48)) 0 = n := by
  induction n using Nat.strong_induction_on with
  | _ n ih =>
    rw [decDigits]
    by_cases h : n < 10
    · rw [if_pos h]
      simp [digitChar_toNat n h]
    · rw [if_neg h]
      rw [List.foldl_append]
      rw [ih (n / 10) (Nat.div_lt_self (by omega) (by omega))]
      simp [digitChar_toNat (n % 10) (Nat.mod_lt _ (by omega))]
      omega

/-- Dropping-while is the identity on a list none of whose elements satisfy
the predicate. -/
theorem dropWhile_eq_self_of_not {α : Type} (p : α → Bool) (l : List α)
    (h : ∀ c ∈ l, p c = false) : l.dropWhile p = l := by
  cases l with
  | nil => rfl
  | cons c cs =>
    rw [List.dropWhile_cons, h c (List.mem_cons_self c cs)]
    simp

/-- Trimming is the identity on a list with no whitespace characters. -/
theorem trimSpace_eq_self (l : List Char) (h : ∀ c ∈ l, isSpaceChar c = false) :
    trimSpace l = l := by
  unfold trimSpace
  rw [dropWhile_eq_self_of_not _ l h]
  rw [dropWhile_eq_self_of_not _ l.reverse (fun c hc => h c (List.mem_reverse.mp hc))]
  exact List.reverse_reverse l

/-- A digit character is not whitespace. -/
theorem isDigit_not_space (c : Char) (h : c.isDigit = true) :
    isSpaceChar c = false := by
  have h1 : c ≠ ' ' := by intro e; subst e; exact absurd h (by decide)
  have h2 : c ≠ '\t' := by intro e; subst e; exact absurd h (by decide)
  have h3 : c ≠ '\n' := by intro e; subst e; exact absurd h (by decide)
  have h4 : c ≠ '\r' := by intro e; subst e; exact absurd h (by decide)
  simp [isSpaceChar, h1, h2, h3, h4]

/-- Parsing inverts rendering: `parseUint32` inverts the decimal rendering of any 32-bit value. -/
theorem parseUint32_decDigits (v : Nat) (h : v < 2 ^ 32) :
    parseUint32 (decDigits v) = some v := by
  unfold parseUint32
  rw [if_neg (decDigits_ne_nil v)]
  have hall : (decDigits v).all Char.isDigit = true := by
    rw [List.all_eq_true]
    exact mem_decDigits_isDigit v
  rw [if_pos hall]
  simp only [parseVal_decDigits]
  rw [if_pos h]

/-- The decimal rendering never starts with the two characters `"1."`. -/
theorem decDigits_no_dot_head (v : Nat) : ¬((decDigits v).take 2 = ['1', '.']) := by
  intro h
  have hdot : '.' ∈ (decDigits v).take 2 := by
    rw [h]
    exact List.mem_cons_of_mem _ (List.mem_singleton_self _)
  have hmem : '.' ∈ decDigits v := List.take_subset _ _ hdot
  exact absurd (mem_decDigits_isDigit v _ hmem) (by decide)

/-- C10: version-format round trip.  For every 32-bit value `v`,
`ParseVersion (FormatVersion v) = v`, and `ParseVersion` also returns `v`
on the plain decimal rendering of `v`. -/
theorem parse_format_version_roundtrip (v : Nat) (h : v < 2 ^ 32) :
    ParseVersion (FormatVersion v) = some v ∧
    ParseVersion (String.mk (decDigits v)) = some v := by
  have hdigits : ∀ c ∈ decDigits v, isSpaceChar c = false := fun c hc =>
    isDigit_not_space c (mem_decDigits_isDigit v c hc)
  constructor
  · simp only [ParseVersion, FormatVersion]
    have hall : ∀ c ∈ ('1' :: '.' :: decDigits v), isSpaceChar c = false := by
      intro c hc
      rcases List.mem_cons.mp hc with h1 | hc
      · rw [h1]; decide
      rcases List.mem_cons.mp hc with h2 | hc
      · rw [h2]; decide
      exact hdigits c hc
    rw [trimSpace_eq_self _ hall]
    rw [if_pos (show ('1' :: '.' :: decDigits v).take 2 = ['1', '.'] from rfl)]
    rw [show ('1' :: '.' :: decDigits v).drop 2 = decDigits v from rfl]
    exact parseUint32_decDigits v h
  · simp only [ParseVersion]
    rw [trimSpace_eq_self _ hdigits]
    rw [if_neg (decDigits_no_dot_head v)]
    exact parseUint32_decDigits v h

/-- C10 witness: the round trip at version 26. -/
theorem parse_format_version_roundtrip_witness :
    ParseVersion (FormatVersion 26) = some 26 ∧
    ParseVersion (String.mk (decDigits 26)) = some 26 :=
  parse_format_version_roundtrip 26 (by decide)
